import Mathlib

/-!
# Dekatron spinner: the glow-transfer driver of `src/main.cpp`

The driver talks to three pins (guide outputs G1 and G2, sense input K0) and
to a busy-wait.  The embedding threads an explicit `World` through every
routine.  A `World` holds the two guide levels, a simulated tube that watches
the guide lines, the number of K0 samples taken so far, and the chronological
list of pin events.  The sense line is a parameter: any function from the
world to a level.

Machine integers: `uint32_t` values are `Nat` (all of them stay below `2 ^ 32`
in the driver), `int32_t` values are `Int`; the two conversions that occur in
`read` are spelled out (`toUInt32`, `toInt32`), and the signed `%` of C is
`Int.tmod` (truncation towards zero).
-/

namespace Dekatron

/-! ## Constants (`#define`s of the source) -/

/-- Pulse width between two guide edges, in microseconds. -/
def PULSE_WIDTH_US : Nat := 250

/-- Settling time between the end of a step and a K0 sample, in microseconds. -/
def SETTLING_TIME_US : Nat := 250

/-- Upper bound on the number of steps of one homing. -/
def MAX_ATTEMPTS : Nat := 100

/-- Number of cathodes; an `int` constant in the source. -/
def CATHODE_COUNT : Int := 10

/-- Dwell between two positions of the demonstration sweep, in milliseconds. -/
def PULSE_RATE : Nat := 50

/-! ## Pins, events and the simulated tube -/

/-- One observable event: a write on G1 or G2, a busy-wait, a K0 sample, a
blocking sleep of the entry point. -/
inductive Event where
  | g1 (level : Bool)
  | g2 (level : Bool)
  | wait (us : Nat)
  | k0 (level : Bool)
  | sleep (ms : Nat)
  deriving DecidableEq

/-- Progress of the simulated tube through a four-phase guide sequence. -/
inductive Phase where
  | idle
  | fwd1
  | fwd2
  | fwd3
  | rev1
  | rev2
  | rev3
  | lost
  deriving DecidableEq

/-- Modelled from the spec: the simulated tube of the test suite (section 8),
which is not part of the source.  It holds a position in 0..9 and how far the
guide lines have got through a four-phase sequence. -/
structure Tube where
  pos : Nat
  phase : Phase
  deriving DecidableEq

/-- Modelled from the spec: reaction of the simulated tube to a change of the
guide levels to `(g1, g2)`.  The full forward sequence
(1,0), (1,1), (0,1), (0,0) adds one modulo 10, the full reverse sequence
(0,1), (1,1), (1,0), (0,0) subtracts one modulo 10, and any other order does
not advance the tube. -/
def Tube.guides (t : Tube) (g1 g2 : Bool) : Tube :=
  match t.phase, g1, g2 with
  | Phase.idle, true, false => { t with phase := Phase.fwd1 }
  | Phase.fwd1, true, true => { t with phase := Phase.fwd2 }
  | Phase.fwd2, false, true => { t with phase := Phase.fwd3 }
  | Phase.fwd3, false, false => { pos := (t.pos + 1) % 10, phase := Phase.idle }
  | Phase.idle, false, true => { t with phase := Phase.rev1 }
  | Phase.rev1, true, true => { t with phase := Phase.rev2 }
  | Phase.rev2, true, false => { t with phase := Phase.rev3 }
  | Phase.rev3, false, false => { pos := (t.pos + 9) % 10, phase := Phase.idle }
  | _, false, false => { t with phase := Phase.idle }
  | _, _, _ => { t with phase := Phase.lost }

/-- Everything the driver can act on or observe. -/
structure World where
  g1 : Bool
  g2 : Bool
  tube : Tube
  samples : Nat
  trace : List Event

/-- A sense line: the level K0 shows in a given world. -/
abbrev SenseLine := World → Bool

/-- Modelled from the spec: the sense line of a healthy simulated tube, high
exactly when the tube sits at position 0. -/
def healthyK0 : SenseLine := fun w => decide (w.tube.pos = 0)

/-- A sense line whose k-th sample (counted from 0 over the whole run) is
`f k`, whatever the tube does. -/
def oracleK0 (f : Nat → Bool) : SenseLine := fun w => f w.samples

/-- A sense line stuck low. -/
def stuckLowK0 : SenseLine := fun _ => false

/-- The statement `g1 = v` of the source: a write on guide output G1. -/
def writeG1 (v : Bool) (w : World) : World :=
  { w with
    g1 := v
    tube := if w.g1 = v then w.tube else w.tube.guides v w.g2
    trace := w.trace ++ [Event.g1 v] }

/-- The statement `g2 = v` of the source: a write on guide output G2. -/
def writeG2 (v : Bool) (w : World) : World :=
  { w with
    g2 := v
    tube := if w.g2 = v then w.tube else w.tube.guides w.g1 v
    trace := w.trace ++ [Event.g2 v] }

/-- The call `wait_us(us)`: nothing changes but the clock. -/
def wait_us (us : Nat) (w : World) : World :=
  { w with trace := w.trace ++ [Event.wait us] }

/-- The call `ThisThread::sleep_for(ms)`: nothing changes but the clock. -/
def sleep_for (ms : Nat) (w : World) : World :=
  { w with trace := w.trace ++ [Event.sleep ms] }

/-- The level a `DigitalOut` shows after the assignment of the integer `v`:
0 for 0 and 1 for every other value. -/
def pinLevel (v : Nat) : Nat := if v = 0 then 0 else 1

/-- The expression `k0` in a condition: one sample of the sense input. -/
def readK0 (k0 : SenseLine) (w : World) : Bool × World :=
  (k0 w, { w with samples := w.samples + 1, trace := w.trace ++ [Event.k0 (k0 w)] })

/-! ## The driver -/

/-- The function `count` (lines 21-44): one four-phase guide sequence, forward
or reverse. -/
def count (forward : Bool) (w : World) : World :=
  if forward then
    let w := writeG1 true w
    let w := wait_us PULSE_WIDTH_US w
    let w := writeG2 true w
    let w := wait_us PULSE_WIDTH_US w
    let w := writeG1 false w
    let w := wait_us PULSE_WIDTH_US w
    let w := writeG2 false w
    wait_us PULSE_WIDTH_US w
  else
    let w := writeG2 true w
    let w := wait_us PULSE_WIDTH_US w
    let w := writeG1 true w
    let w := wait_us PULSE_WIDTH_US w
    let w := writeG2 false w
    let w := wait_us PULSE_WIDTH_US w
    let w := writeG1 false w
    wait_us PULSE_WIDTH_US w

/-- The `for` loop of `reset` (lines 52-64) with `n` iterations left, that is
with loop index `MAX_ATTEMPTS - n`.  The first component is `error`. -/
def resetLoop (k0 : SenseLine) : Nat → World → Nat × World
  | 0, w => (1, w)
  | n + 1, w =>
    let w := count true w
    let w := wait_us SETTLING_TIME_US w
    let s := readK0 k0 w
    if s.1 then (0, s.2) else resetLoop k0 n s.2

/-- The function `reset` (lines 48-66): returns 0 on success, 1 on failure. -/
def reset (k0 : SenseLine) (w : World) : Nat × World :=
  resetLoop k0 MAX_ATTEMPTS w

/-- The `for` loop of `set` (lines 77-80) with `n` iterations left. -/
def setLoop : Nat → World → World
  | 0, w => w
  | n + 1, w => setLoop n (count true w)

/-- The function `set` (lines 70-84); `number` is a `uint32_t`, so callers
pass a value below `2 ^ 32`. -/
def set (k0 : SenseLine) (number : Nat) (w : World) : Nat × World :=
  let r := reset k0 w
  if r.1 = 0 then (r.1, setLoop number r.2) else (r.1, r.2)

/-- The `for` loop of `destructiveRead` (lines 93-105) with `n` iterations
left and loop variable `value`.  The components are `error`, `value` and the
world at loop exit. -/
def destructiveReadLoop (k0 : SenseLine) : Nat → Int → World → Nat × Int × World
  | 0, value, w => (1, value, w)
  | n + 1, value, w =>
    let w := count true w
    let w := wait_us SETTLING_TIME_US w
    let s := readK0 k0 w
    if s.1 then (0, value, s.2) else destructiveReadLoop k0 n (value + 1) s.2

/-- The function `destructiveRead` (lines 88-116).  `value` stays in 0..100
and `CATHODE_COUNT - value - 1` in -91..9, so no 32-bit overflow occurs; `%`
on `int` truncates towards zero. -/
def destructiveRead (k0 : SenseLine) (w : World) : Int × World :=
  let r := destructiveReadLoop k0 MAX_ATTEMPTS 0 w
  if r.1 ≠ 0 then (-1, r.2.2)
  else (Int.tmod (CATHODE_COUNT - r.2.1 - 1) CATHODE_COUNT, r.2.2)

/-- Conversion of an `int32_t` to `uint32_t` (argument `reading` of `set`). -/
def toUInt32 (x : Int) : Nat := (x % 4294967296).toNat

/-- Conversion of a `uint32_t` to `int32_t` (result of `set` stored in
`returnValue`). -/
def toInt32 (n : Nat) : Int :=
  if n % 4294967296 < 2147483648 then ((n % 4294967296 : Nat) : Int)
  else ((n % 4294967296 : Nat) : Int) - 4294967296

/-- The function `read` (lines 121-138). -/
def read (k0 : SenseLine) (w : World) : Int × World :=
  let d := destructiveRead k0 w
  let reading := d.1
  let r : Int × World :=
    if reading ≠ -1 then
      let s := set k0 (toUInt32 reading) d.2
      (toInt32 s.1, s.2)
    else (-1, d.2)
  if r.1 ≠ -1 then (reading, r.2) else (r.1, r.2)

/-- The pins owned by `main`: the three indicator levels and the world behind
the two guide outputs and the sense input. -/
structure Board where
  led1 : Nat
  led2 : Nat
  led3 : Nat
  world : World

/-- The state after the declarations of `main` (lines 142-149): every output
is constructed low; the position of the tube is whatever it is at power-up. -/
def powerUp (tube : Tube) : Board :=
  { led1 := 0, led2 := 0, led3 := 0,
    world := { g1 := false, g2 := false, tube := tube, samples := 0, trace := [] } }

/-- The start-up sequence of `main` (lines 151-156): homing reported on led2,
set to 9 reported on led3, a sleep of 500 ms, and one read whose result is
discarded. -/
def mainEntry (k0 : SenseLine) (b : Board) : Board :=
  let r := reset k0 b.world
  let b := { b with led2 := pinLevel r.1, world := r.2 }
  let s := set k0 9 b.world
  let b := { b with led3 := pinLevel s.1, world := s.2 }
  let b := { b with world := sleep_for 500 b.world }
  let d := read k0 b.world
  { b with world := d.2 }

/-- The `for` loop of the demonstration sweep (lines 161-166) with `n`
iterations left and loop index `i`. -/
def sweepLoop (k0 : SenseLine) : Nat → Nat → World → World
  | 0, _, w => w
  | n + 1, i, w => sweepLoop k0 n (i + 1) (sleep_for PULSE_RATE (set k0 i w).2)

/-- The first `n` iterations of the endless `while (true)` loop of `main`
(lines 158-167): toggle led1, then sweep 0..9. -/
def mainLoop (k0 : SenseLine) : Nat → Board → Board
  | 0, b => b
  | n + 1, b =>
    let b := { b with led1 := pinLevel (if b.led1 = 0 then 1 else 0) }
    let b := { b with world := sweepLoop k0 10 0 b.world }
    mainLoop k0 n b

/-- The function `main` (lines 140-168), observed after `n` iterations of
its endless loop, with the tube as found at power-up. -/
def main (k0 : SenseLine) (tube : Tube) (n : Nat) : Board :=
  mainLoop k0 n (mainEntry k0 (powerUp tube))

/-! ## Vocabulary of the statements -/

/-- A world whose guide lines are low and whose simulated tube rests at
position `p`. -/
def World.idleAt (w : World) (p : Nat) : Prop :=
  w.g1 = false ∧ w.g2 = false ∧ w.tube.phase = Phase.idle ∧ w.tube.pos = p

/-- The world at power-up with the simulated tube at position `p`. -/
def World.start (p : Nat) : World :=
  { g1 := false, g2 := false, tube := { pos := p, phase := Phase.idle },
    samples := 0, trace := [] }

/-- The eight events of one forward step. -/
def forwardPulse : List Event :=
  [Event.g1 true, Event.wait 250, Event.g2 true, Event.wait 250,
   Event.g1 false, Event.wait 250, Event.g2 false, Event.wait 250]

/-- The events of one homing iteration whose sample reads `b`: a forward
step, the settling wait, the sample. -/
def attempt (b : Bool) : List Event :=
  forwardPulse ++ [Event.wait 250, Event.k0 b]

/-- The trace `t` repeated `n` times. -/
def repeatTrace : Nat → List Event → List Event
  | 0, _ => []
  | n + 1, t => t ++ repeatTrace n t

/-- Whether the list `l` begins with the pattern `p`. -/
def startsWith : List Event → List Event → Bool
  | [], _ => true
  | _ :: _, [] => false
  | a :: p, b :: l => decide (a = b) && startsWith p l

/-- Number of forward steps in a trace: the number of places where the eight
events of a forward step occur in a row. -/
def forwardSteps : List Event → Nat
  | [] => 0
  | e :: l => (if startsWith forwardPulse (e :: l) then 1 else 0) + forwardSteps l

/-- The events appended to the trace between two worlds. -/
def emitted (before after : World) : List Event :=
  after.trace.drop before.trace.length

/-- The sample sequence that is high on sample number `i` and low on every
other sample. -/
def highOnlyAt (i : Nat) : Nat → Bool := fun k => decide (k = i)

/-- The sample sequence that is high on the sample numbers `a` and `b` and
low on every other sample. -/
def highAtBoth (a b : Nat) : Nat → Bool := fun k => decide (k = a) || decide (k = b)

/-- Number of forward steps a healthy tube at position `p` needs to reach
position 0 by stepping forward at least once. -/
def homingSteps (p : Nat) : Nat := if p = 0 then 10 else 10 - p

/-- The eight events of one reverse step. -/
def reversePulse : List Event :=
  [Event.g2 true, Event.wait 250, Event.g1 true, Event.wait 250,
   Event.g2 false, Event.wait 250, Event.g1 false, Event.wait 250]

/-- Exchange of the two guide lines in an event. -/
def swapGuides : Event → Event
  | Event.g1 v => Event.g2 v
  | Event.g2 v => Event.g1 v
  | e => e

/-- Whether an event is a write on a guide line. -/
def isWrite : Event → Bool
  | Event.g1 _ => true
  | Event.g2 _ => true
  | _ => false

/-- Whether every guide write of a trace is directly followed by a wait of
250 microseconds. -/
def writesSpaced : List Event → Bool
  | [] => true
  | e :: l => (!isWrite e || decide (l.head? = some (Event.wait 250))) && writesSpaced l

/-- Whether every K0 sample of a trace comes directly after a wait of 250
microseconds; `ok` tells whether the event before the trace was such a wait. -/
def settled : Bool → List Event → Bool
  | _, [] => true
  | ok, Event.k0 _ :: l => ok && settled false l
  | _, Event.wait us :: l => settled (decide (us = 250)) l
  | _, _ :: l => settled false l

/-- The events of a run of homing iterations whose samples read `bs`. -/
def attempts : List Bool → List Event
  | [] => []
  | b :: bs => attempt b ++ attempts bs

/-- A trace made of at least one homing iteration, then further homing
iterations, then forward steps only. -/
def HomingsThenSteps (t : List Event) : Prop :=
  ∃ (bs : List Bool) (m : Nat), bs ≠ [] ∧ t = attempts bs ++ repeatTrace m forwardPulse

/-- The world after the homing at the start of `main`. -/
def afterInitialReset (k0 : SenseLine) (tube : Tube) : World :=
  (reset k0 (powerUp tube).world).2

/-- The world after the set to 9 at the start of `main`. -/
def afterInitialSet (k0 : SenseLine) (tube : Tube) : World :=
  (set k0 9 (afterInitialReset k0 tube)).2

/-- The read at the start of `main`, after the sleep of 500 ms. -/
def initialRead (k0 : SenseLine) (tube : Tube) : Int × World :=
  read k0 (sleep_for 500 (afterInitialSet k0 tube))

/-- The level read by the sample of one homing iteration started in `w`. -/
def senseAfterStep (k0 : SenseLine) (w : World) : Bool :=
  (readK0 k0 (wait_us SETTLING_TIME_US (count true w))).1

/-- The world after one homing iteration started in `w`: a forward step, the
settling wait and one sample. -/
def afterAttempt (k0 : SenseLine) (w : World) : World :=
  (readK0 k0 (wait_us SETTLING_TIME_US (count true w))).2

/-! ## One step and one homing iteration -/

theorem count_forward_trace (w : World) :
    (count true w).trace = w.trace ++ forwardPulse := by
  simp [count, writeG1, writeG2, wait_us, forwardPulse, PULSE_WIDTH_US]

theorem count_forward_samples (w : World) : (count true w).samples = w.samples := by
  simp [count, writeG1, writeG2, wait_us]

theorem count_forward_idleAt (w : World) (p : Nat) (hw : w.idleAt p) :
    (count true w).idleAt ((p + 1) % 10) := by
  obtain ⟨g1, g2, ⟨pos, phase⟩, samples, trace⟩ := w
  obtain ⟨h1, h2, h3, h4⟩ := hw
  simp only at h1 h2 h3 h4
  subst h1 h2 h3 h4
  simp [count, writeG1, writeG2, wait_us, Tube.guides, World.idleAt]

theorem resetLoop_succ (k0 : SenseLine) (n : Nat) (w : World) :
    resetLoop k0 (n + 1) w =
      if senseAfterStep k0 w then (0, afterAttempt k0 w)
      else resetLoop k0 n (afterAttempt k0 w) := rfl

theorem destructiveReadLoop_succ (k0 : SenseLine) (n : Nat) (v : Int) (w : World) :
    destructiveReadLoop k0 (n + 1) v w =
      if senseAfterStep k0 w then (0, v, afterAttempt k0 w)
      else destructiveReadLoop k0 n (v + 1) (afterAttempt k0 w) := rfl

theorem afterAttempt_trace (k0 : SenseLine) (w : World) :
    (afterAttempt k0 w).trace = w.trace ++ attempt (senseAfterStep k0 w) := by
  simp [afterAttempt, senseAfterStep, readK0, wait_us, count_forward_trace, attempt,
    SETTLING_TIME_US]

theorem afterAttempt_samples (k0 : SenseLine) (w : World) :
    (afterAttempt k0 w).samples = w.samples + 1 := by
  simp [afterAttempt, readK0, wait_us, count_forward_samples]

theorem afterAttempt_idleAt (k0 : SenseLine) (w : World) (p : Nat) (hw : w.idleAt p) :
    (afterAttempt k0 w).idleAt ((p + 1) % 10) := by
  have h := count_forward_idleAt w p hw
  simpa [afterAttempt, readK0, wait_us, World.idleAt] using h

theorem senseAfterStep_healthy (w : World) (p : Nat) (hw : w.idleAt p) :
    senseAfterStep healthyK0 w = decide ((p + 1) % 10 = 0) := by
  have h := count_forward_idleAt w p hw
  simp [senseAfterStep, readK0, wait_us, healthyK0, h.2.2.2]

theorem senseAfterStep_oracle (f : Nat → Bool) (w : World) :
    senseAfterStep (oracleK0 f) w = f w.samples := by
  simp [senseAfterStep, readK0, wait_us, oracleK0, count_forward_samples]

theorem senseAfterStep_stuckLow (w : World) : senseAfterStep stuckLowK0 w = false := rfl

/-! ## The loops, for any sense line -/

theorem resetLoop_error (k0 : SenseLine) (n : Nat) :
    ∀ w : World, (resetLoop k0 n w).1 = 0 ∨ (resetLoop k0 n w).1 = 1 := by
  induction n with
  | zero => intro w; right; rfl
  | succ n ih =>
    intro w
    rw [resetLoop_succ]
    by_cases h : senseAfterStep k0 w = true
    · left; simp [h]
    · simpa [h] using ih (afterAttempt k0 w)

theorem resetLoop_fail (k0 : SenseLine) (n : Nat) :
    ∀ w : World, (resetLoop k0 n w).1 = 1 →
      (resetLoop k0 n w).2.trace = w.trace ++ repeatTrace n (attempt false) ∧
      (resetLoop k0 n w).2.samples = w.samples + n := by
  induction n with
  | zero => intro w _; simp [resetLoop, repeatTrace]
  | succ n ih =>
    intro w
    rw [resetLoop_succ]
    by_cases h : senseAfterStep k0 w = true
    · simp [h]
    · simp only [h, Bool.false_eq_true, if_false]
      intro hfail
      obtain ⟨ht, hs⟩ := ih (afterAttempt k0 w) hfail
      rw [ht, hs, afterAttempt_trace, afterAttempt_samples]
      simp only [Bool.not_eq_true] at h
      simp [h, repeatTrace, Nat.add_assoc, Nat.add_comm 1 n]

theorem destructiveReadLoop_resetLoop (k0 : SenseLine) (n : Nat) :
    ∀ (v : Int) (w : World),
      (destructiveReadLoop k0 n v w).1 = (resetLoop k0 n w).1 ∧
      (destructiveReadLoop k0 n v w).2.2 = (resetLoop k0 n w).2 := by
  induction n with
  | zero => intro v w; exact ⟨rfl, rfl⟩
  | succ n ih =>
    intro v w
    rw [resetLoop_succ, destructiveReadLoop_succ]
    by_cases h : senseAfterStep k0 w = true
    · simp [h]
    · simpa [h] using ih (v + 1) (afterAttempt k0 w)

theorem setLoop_trace (n : Nat) :
    ∀ w : World, (setLoop n w).trace = w.trace ++ repeatTrace n forwardPulse := by
  induction n with
  | zero => intro w; simp [setLoop, repeatTrace]
  | succ n ih =>
    intro w
    simp [setLoop, repeatTrace, ih, count_forward_trace]

theorem setLoop_idleAt (n : Nat) :
    ∀ (w : World) (p : Nat), p < 10 → w.idleAt p → (setLoop n w).idleAt ((p + n) % 10) := by
  induction n with
  | zero =>
    intro w p hp hw
    have h : (p + 0) % 10 = p := by omega
    rw [h]
    exact hw
  | succ n ih =>
    intro w p hp hw
    have h := ih (count true w) ((p + 1) % 10) (by omega) (count_forward_idleAt w p hw)
    have e : ((p + 1) % 10 + n) % 10 = (p + (n + 1)) % 10 := by omega
    rw [e] at h
    exact h

/-! ## The loops on a healthy tube and on a stuck sense line -/

theorem resetLoop_healthy (k : Nat) :
    ∀ (q n : Nat) (w : World), q + k + 1 = 10 → w.idleAt q → k < n →
      (resetLoop healthyK0 n w).1 = 0 ∧
      (resetLoop healthyK0 n w).2.idleAt 0 ∧
      (resetLoop healthyK0 n w).2.trace =
        w.trace ++ (repeatTrace k (attempt false) ++ attempt true) := by
  induction k with
  | zero =>
    intro q n w hq hw hn
    obtain ⟨m, rfl⟩ : ∃ m, n = m + 1 := ⟨n - 1, by omega⟩
    have h0 : (q + 1) % 10 = 0 := by omega
    have hs : senseAfterStep healthyK0 w = true := by
      rw [senseAfterStep_healthy w q hw]; simp [h0]
    have hi := afterAttempt_idleAt healthyK0 w q hw
    rw [h0] at hi
    rw [resetLoop_succ]
    simp only [hs, if_true]
    refine ⟨trivial, hi, ?_⟩
    rw [afterAttempt_trace, hs]
    simp [repeatTrace]
  | succ k ih =>
    intro q n w hq hw hn
    obtain ⟨m, rfl⟩ : ∃ m, n = m + 1 := ⟨n - 1, by omega⟩
    have h0 : (q + 1) % 10 = q + 1 := by omega
    have hs : senseAfterStep healthyK0 w = false := by
      rw [senseAfterStep_healthy w q hw]; simp [h0]
    have hi := afterAttempt_idleAt healthyK0 w q hw
    rw [h0] at hi
    obtain ⟨r1, r2, r3⟩ := ih (q + 1) m (afterAttempt healthyK0 w) (by omega) hi (by omega)
    rw [resetLoop_succ]
    simp only [hs, Bool.false_eq_true, if_false]
    refine ⟨r1, r2, ?_⟩
    rw [r3, afterAttempt_trace, hs]
    simp [repeatTrace]

theorem destructiveReadLoop_healthy_value (k : Nat) :
    ∀ (q n : Nat) (v : Int) (w : World), q + k + 1 = 10 → w.idleAt q → k < n →
      (destructiveReadLoop healthyK0 n v w).2.1 = v + k := by
  induction k with
  | zero =>
    intro q n v w hq hw hn
    obtain ⟨m, rfl⟩ : ∃ m, n = m + 1 := ⟨n - 1, by omega⟩
    have h0 : (q + 1) % 10 = 0 := by omega
    have hs : senseAfterStep healthyK0 w = true := by
      rw [senseAfterStep_healthy w q hw]; simp [h0]
    rw [destructiveReadLoop_succ]
    simp [hs]
  | succ k ih =>
    intro q n v w hq hw hn
    obtain ⟨m, rfl⟩ : ∃ m, n = m + 1 := ⟨n - 1, by omega⟩
    have h0 : (q + 1) % 10 = q + 1 := by omega
    have hs : senseAfterStep healthyK0 w = false := by
      rw [senseAfterStep_healthy w q hw]; simp [h0]
    have hi := afterAttempt_idleAt healthyK0 w q hw
    rw [h0] at hi
    have r := ih (q + 1) m (v + 1) (afterAttempt healthyK0 w) (by omega) hi (by omega)
    rw [destructiveReadLoop_succ]
    simp only [hs, Bool.false_eq_true, if_false]
    rw [r]
    push_cast
    ring

theorem resetLoop_stuckLow (n : Nat) :
    ∀ (w : World) (p : Nat), p < 10 → w.idleAt p →
      (resetLoop stuckLowK0 n w).1 = 1 ∧
      (resetLoop stuckLowK0 n w).2.idleAt ((p + n) % 10) := by
  induction n with
  | zero =>
    intro w p hp hw
    have h : (p + 0) % 10 = p := by omega
    rw [h]
    exact ⟨rfl, hw⟩
  | succ n ih =>
    intro w p hp hw
    have hi := afterAttempt_idleAt stuckLowK0 w p hw
    have r := ih (afterAttempt stuckLowK0 w) ((p + 1) % 10) (by omega) hi
    have e : ((p + 1) % 10 + n) % 10 = (p + (n + 1)) % 10 := by omega
    rw [e] at r
    rw [resetLoop_succ]
    simpa [senseAfterStep_stuckLow] using r

/-! ## The loops on a sense line given sample by sample -/

theorem resetLoop_oracle_iff (f : Nat → Bool) (n : Nat) :
    ∀ w : World, (resetLoop (oracleK0 f) n w).1 = 0 ↔
      ∃ i, i < n ∧ f (w.samples + i) = true := by
  induction n with
  | zero => intro w; simp [resetLoop]
  | succ n ih =>
    intro w
    rw [resetLoop_succ, senseAfterStep_oracle]
    by_cases h : f w.samples = true
    · simp only [h, if_true, true_iff]
      exact ⟨0, by omega, by simpa using h⟩
    · simp only [h, Bool.false_eq_true, if_false]
      rw [ih, afterAttempt_samples]
      constructor
      · rintro ⟨i, hi, hf⟩
        exact ⟨i + 1, by omega, by rw [← hf]; congr 1; omega⟩
      · rintro ⟨i, hi, hf⟩
        cases i with
        | zero => exact absurd (by simpa using hf) h
        | succ i => exact ⟨i, by omega, by rw [← hf]; congr 1; omega⟩

theorem resetLoop_oracle_first (f : Nat → Bool) (i : Nat) :
    ∀ (n : Nat) (w : World), i < n → (∀ j, j < i → f (w.samples + j) = false) →
      f (w.samples + i) = true →
      (resetLoop (oracleK0 f) n w).1 = 0 ∧
      (resetLoop (oracleK0 f) n w).2.trace =
        w.trace ++ (repeatTrace i (attempt false) ++ attempt true) ∧
      (resetLoop (oracleK0 f) n w).2.samples = w.samples + i + 1 := by
  induction i with
  | zero =>
    intro n w hn _ hi
    obtain ⟨m, rfl⟩ : ∃ m, n = m + 1 := ⟨n - 1, by omega⟩
    have hs : senseAfterStep (oracleK0 f) w = true := by
      rw [senseAfterStep_oracle]; simpa using hi
    rw [resetLoop_succ]
    simp only [hs, if_true]
    refine ⟨trivial, ?_, afterAttempt_samples _ w⟩
    rw [afterAttempt_trace, hs]
    simp [repeatTrace]
  | succ i ih =>
    intro n w hn hlow hi
    obtain ⟨m, rfl⟩ : ∃ m, n = m + 1 := ⟨n - 1, by omega⟩
    have hs : senseAfterStep (oracleK0 f) w = false := by
      rw [senseAfterStep_oracle]; simpa using hlow 0 (by omega)
    have hsam := afterAttempt_samples (oracleK0 f) w
    obtain ⟨r1, r2, r3⟩ := ih m (afterAttempt (oracleK0 f) w) (by omega)
      (fun j hj => by
        rw [hsam]
        have := hlow (j + 1) (by omega)
        rw [← this]; congr 1; omega)
      (by rw [hsam, ← hi]; congr 1; omega)
    rw [resetLoop_succ]
    simp only [hs, Bool.false_eq_true, if_false]
    refine ⟨r1, ?_, by rw [r3, hsam]; omega⟩
    rw [r2, afterAttempt_trace, hs]
    simp [repeatTrace]

theorem destructiveReadLoop_oracle_first (f : Nat → Bool) (i : Nat) :
    ∀ (n : Nat) (v : Int) (w : World), i < n →
      (∀ j, j < i → f (w.samples + j) = false) → f (w.samples + i) = true →
      (destructiveReadLoop (oracleK0 f) n v w).2.1 = v + i := by
  induction i with
  | zero =>
    intro n v w hn _ hi
    obtain ⟨m, rfl⟩ : ∃ m, n = m + 1 := ⟨n - 1, by omega⟩
    have hs : senseAfterStep (oracleK0 f) w = true := by
      rw [senseAfterStep_oracle]; simpa using hi
    rw [destructiveReadLoop_succ]
    simp [hs]
  | succ i ih =>
    intro n v w hn hlow hi
    obtain ⟨m, rfl⟩ : ∃ m, n = m + 1 := ⟨n - 1, by omega⟩
    have hs : senseAfterStep (oracleK0 f) w = false := by
      rw [senseAfterStep_oracle]; simpa using hlow 0 (by omega)
    have hsam := afterAttempt_samples (oracleK0 f) w
    have r := ih m (v + 1) (afterAttempt (oracleK0 f) w) (by omega)
      (fun j hj => by
        rw [hsam]
        have := hlow (j + 1) (by omega)
        rw [← this]; congr 1; omega)
      (by rw [hsam, ← hi]; congr 1; omega)
    rw [destructiveReadLoop_succ]
    simp only [hs, Bool.false_eq_true, if_false]
    rw [r]
    push_cast
    ring

/-! ## Counting steps in a trace -/

theorem forwardSteps_pulse (l : List Event) :
    forwardSteps (forwardPulse ++ l) = 1 + forwardSteps l := by
  simp [forwardPulse, forwardSteps, startsWith]

theorem forwardSteps_attempt (b : Bool) (l : List Event) :
    forwardSteps (attempt b ++ l) = 1 + forwardSteps l := by
  simp [attempt, forwardPulse, forwardSteps, startsWith]

theorem forwardSteps_repeat_pulse (n : Nat) (l : List Event) :
    forwardSteps (repeatTrace n forwardPulse ++ l) = n + forwardSteps l := by
  induction n with
  | zero => simp [repeatTrace]
  | succ n ih =>
    rw [repeatTrace, List.append_assoc, forwardSteps_pulse, ih]
    omega

theorem forwardSteps_repeat_attempt (b : Bool) (n : Nat) (l : List Event) :
    forwardSteps (repeatTrace n (attempt b) ++ l) = n + forwardSteps l := by
  induction n with
  | zero => simp [repeatTrace]
  | succ n ih =>
    rw [repeatTrace, List.append_assoc, forwardSteps_attempt, ih]
    omega

theorem emitted_of_trace (w w' : World) (t : List Event) (h : w'.trace = w.trace ++ t) :
    emitted w w' = t := by
  simp [emitted, h]

/-! ## The routines -/

theorem reset_healthy (P : Nat) (hP : P < 10) (w : World) (hw : w.idleAt P) :
    (reset healthyK0 w).1 = 0 ∧ (reset healthyK0 w).2.idleAt 0 ∧
    (reset healthyK0 w).2.trace =
      w.trace ++ (repeatTrace (homingSteps P - 1) (attempt false) ++ attempt true) := by
  unfold reset homingSteps MAX_ATTEMPTS
  by_cases h : P = 0
  · subst h
    exact resetLoop_healthy 9 0 100 w (by omega) hw (by omega)
  · have e : (if P = 0 then 10 else 10 - P) - 1 = 9 - P := by simp [h]; omega
    rw [e]
    exact resetLoop_healthy (9 - P) P 100 w (by omega) hw (by omega)

theorem destructiveRead_world (k0 : SenseLine) (w : World) :
    (destructiveRead k0 w).2 = (reset k0 w).2 := by
  have h := (destructiveReadLoop_resetLoop k0 MAX_ATTEMPTS 0 w).2
  unfold destructiveRead reset
  by_cases e : (destructiveReadLoop k0 MAX_ATTEMPTS 0 w).1 = 0 <;> simp [e, h]

theorem destructiveRead_of_fail (k0 : SenseLine) (w : World) (h : (reset k0 w).1 = 1) :
    (destructiveRead k0 w).1 = -1 := by
  have e := (destructiveReadLoop_resetLoop k0 MAX_ATTEMPTS 0 w).1
  unfold reset at h
  rw [h] at e
  unfold destructiveRead
  simp [e]

theorem destructiveRead_of_success (k0 : SenseLine) (w : World) (h : (reset k0 w).1 = 0) :
    (destructiveRead k0 w).1 =
      Int.tmod (10 - (destructiveReadLoop k0 MAX_ATTEMPTS 0 w).2.1 - 1) 10 := by
  have e := (destructiveReadLoop_resetLoop k0 MAX_ATTEMPTS 0 w).1
  unfold reset at h
  rw [h] at e
  unfold destructiveRead CATHODE_COUNT
  simp [e]

theorem destructiveRead_healthy (P : Nat) (hP : P < 10) (w : World) (hw : w.idleAt P) :
    (destructiveRead healthyK0 w).1 = (P : Int) := by
  rw [destructiveRead_of_success healthyK0 w (reset_healthy P hP w hw).1]
  unfold MAX_ATTEMPTS
  by_cases h : P = 0
  · subst h
    rw [destructiveReadLoop_healthy_value 9 0 100 0 w (by omega) hw (by omega)]
    decide
  · rw [destructiveReadLoop_healthy_value (9 - P) P 100 0 w (by omega) hw (by omega)]
    interval_cases P <;> first | omega | decide

theorem destructiveRead_oracle_first (f : Nat → Bool) (i : Nat) (w : World) (hi : i < 100)
    (hlow : ∀ j, j < i → f (w.samples + j) = false) (hhigh : f (w.samples + i) = true) :
    (destructiveRead (oracleK0 f) w).1 = Int.tmod (10 - (i : Int) - 1) 10 := by
  have hs : (reset (oracleK0 f) w).1 = 0 :=
    (resetLoop_oracle_first f i 100 w hi hlow hhigh).1
  rw [destructiveRead_of_success (oracleK0 f) w hs]
  unfold MAX_ATTEMPTS
  rw [destructiveReadLoop_oracle_first f i 100 0 w hi hlow hhigh]
  simp

theorem set_error (k0 : SenseLine) (N : Nat) (w : World) :
    (set k0 N w).1 = (reset k0 w).1 := by
  unfold set
  by_cases h : (reset k0 w).1 = 0 <;> simp [h]

theorem set_of_fail (k0 : SenseLine) (N : Nat) (w : World) (h : (reset k0 w).1 ≠ 0) :
    (set k0 N w).2 = (reset k0 w).2 := by
  unfold set
  simp [h]

theorem set_of_success (k0 : SenseLine) (N : Nat) (w : World) (h : (reset k0 w).1 = 0) :
    (set k0 N w).2 = setLoop N (reset k0 w).2 := by
  unfold set
  simp [h]

theorem set_healthy (P : Nat) (hP : P < 10) (N : Nat) (w : World) (hw : w.idleAt P) :
    (set healthyK0 N w).1 = 0 ∧ (set healthyK0 N w).2.idleAt (N % 10) := by
  obtain ⟨r1, r2, _⟩ := reset_healthy P hP w hw
  refine ⟨by rw [set_error, r1], ?_⟩
  rw [set_of_success healthyK0 N w r1]
  have h := setLoop_idleAt N (reset healthyK0 w).2 0 (by omega) r2
  simpa using h

theorem read_value (k0 : SenseLine) (w : World) :
    (read k0 w).1 = (destructiveRead k0 w).1 := by
  unfold read
  by_cases h : (destructiveRead k0 w).1 = -1
  · simp [h]
  · rcases resetLoop_error k0 MAX_ATTEMPTS (destructiveRead k0 w).2 with e | e
    · have e1 : (set k0 (toUInt32 (destructiveRead k0 w).1) (destructiveRead k0 w).2).1 = 0 := by
        rw [set_error]; exact e
      simp [h, e1, toInt32]
    · have e1 : (set k0 (toUInt32 (destructiveRead k0 w).1) (destructiveRead k0 w).2).1 = 1 := by
        rw [set_error]; exact e
      simp [h, e1, toInt32]

theorem read_world_of_reading (k0 : SenseLine) (w : World)
    (h : (destructiveRead k0 w).1 ≠ -1) :
    (read k0 w).2 = (set k0 (toUInt32 (destructiveRead k0 w).1) (destructiveRead k0 w).2).2 := by
  unfold read
  by_cases e : toInt32 (set k0 (toUInt32 (destructiveRead k0 w).1) (destructiveRead k0 w).2).1 = -1
    <;> simp [h, e]

theorem read_healthy (P : Nat) (hP : P < 10) (w : World) (hw : w.idleAt P) :
    (read healthyK0 w).1 = (P : Int) ∧ (read healthyK0 w).2.idleAt P := by
  have hd := destructiveRead_healthy P hP w hw
  have hne : (destructiveRead healthyK0 w).1 ≠ -1 := by rw [hd]; omega
  refine ⟨by rw [read_value, hd], ?_⟩
  rw [read_world_of_reading healthyK0 w hne, hd, destructiveRead_world]
  have hu : toUInt32 (P : Int) = P := by
    unfold toUInt32
    omega
  rw [hu]
  have h := (set_healthy 0 (by omega) P (reset healthyK0 w).2 (reset_healthy P hP w hw).2.1).2
  have e : P % 10 = P := by omega
  rw [e] at h
  exact h

theorem forwardSteps_homing (k : Nat) :
    forwardSteps (repeatTrace k (attempt false) ++ attempt true) = k + 1 := by
  have h := forwardSteps_attempt true []
  rw [List.append_nil] at h
  rw [forwardSteps_repeat_attempt, h]
  simp [forwardSteps]

theorem forwardSteps_repeat_attempt_nil (b : Bool) (n : Nat) :
    forwardSteps (repeatTrace n (attempt b)) = n := by
  have h := forwardSteps_repeat_attempt b n []
  rw [List.append_nil] at h
  rw [h]
  simp [forwardSteps]

theorem forwardSteps_repeat_pulse_nil (n : Nat) :
    forwardSteps (repeatTrace n forwardPulse) = n := by
  have h := forwardSteps_repeat_pulse n []
  rw [List.append_nil] at h
  rw [h]
  simp [forwardSteps]

theorem reset_stuckLow (w : World) (p : Nat) (hp : p < 10) (hw : w.idleAt p) :
    (reset stuckLowK0 w).1 = 1 ∧ (reset stuckLowK0 w).2.idleAt ((p + 100) % 10) :=
  resetLoop_stuckLow 100 w p hp hw

theorem start_idleAt (p : Nat) : (World.start p).idleAt p := ⟨rfl, rfl, rfl, rfl⟩

/-! ## Guide levels, the reverse step and a sense line that never asserts -/

theorem count_guides_low (forward : Bool) (w : World) :
    (count forward w).g1 = false ∧ (count forward w).g2 = false := by
  cases forward <;> simp [count, writeG1, writeG2, wait_us]

theorem count_reverse_trace (w : World) :
    (count false w).trace = w.trace ++ reversePulse := by
  simp [count, writeG1, writeG2, wait_us, reversePulse, PULSE_WIDTH_US]

theorem count_reverse_idleAt (w : World) (p : Nat) (hw : w.idleAt p) :
    (count false w).idleAt ((p + 9) % 10) := by
  obtain ⟨g1, g2, ⟨pos, phase⟩, samples, trace⟩ := w
  obtain ⟨h1, h2, h3, h4⟩ := hw
  simp only at h1 h2 h3 h4
  subst h1 h2 h3 h4
  simp [count, writeG1, writeG2, wait_us, Tube.guides, World.idleAt]

theorem iterate_count_idleAt (n : Nat) :
    ∀ (w : World) (p : Nat), p < 10 → w.idleAt p →
      (Nat.iterate (count true) n w).idleAt ((p + n) % 10) := by
  induction n with
  | zero =>
    intro w p hp hw
    have h : (p + 0) % 10 = p := by omega
    rw [h]
    exact hw
  | succ n ih =>
    intro w p hp hw
    have h := ih (count true w) ((p + 1) % 10) (by omega) (count_forward_idleAt w p hw)
    have e : ((p + 1) % 10 + n) % 10 = (p + (n + 1)) % 10 := by omega
    rw [e] at h
    exact h

theorem afterAttempt_guides_low (k0 : SenseLine) (w : World) :
    (afterAttempt k0 w).g1 = false ∧ (afterAttempt k0 w).g2 = false := by
  have h := count_guides_low true w
  simpa [afterAttempt, readK0, wait_us] using h

theorem resetLoop_guides_low (k0 : SenseLine) (n : Nat) :
    ∀ w : World, w.g1 = false → w.g2 = false →
      (resetLoop k0 n w).2.g1 = false ∧ (resetLoop k0 n w).2.g2 = false := by
  induction n with
  | zero => intro w h1 h2; exact ⟨h1, h2⟩
  | succ n ih =>
    intro w _ _
    have hg := afterAttempt_guides_low k0 w
    rw [resetLoop_succ]
    by_cases h : senseAfterStep k0 w = true
    · simpa [h] using hg
    · simpa [h] using ih (afterAttempt k0 w) hg.1 hg.2

theorem setLoop_guides_low (n : Nat) :
    ∀ w : World, w.g1 = false → w.g2 = false →
      (setLoop n w).g1 = false ∧ (setLoop n w).g2 = false := by
  induction n with
  | zero => intro w h1 h2; exact ⟨h1, h2⟩
  | succ n ih =>
    intro w _ _
    exact ih (count true w) (count_guides_low true w).1 (count_guides_low true w).2

theorem set_guides_low (k0 : SenseLine) (N : Nat) (w : World)
    (h1 : w.g1 = false) (h2 : w.g2 = false) :
    (set k0 N w).2.g1 = false ∧ (set k0 N w).2.g2 = false := by
  have hr : (reset k0 w).2.g1 = false ∧ (reset k0 w).2.g2 = false :=
    resetLoop_guides_low k0 MAX_ATTEMPTS w h1 h2
  by_cases h : (reset k0 w).1 = 0
  · rw [set_of_success k0 N w h]
    exact setLoop_guides_low N (reset k0 w).2 hr.1 hr.2
  · rw [set_of_fail k0 N w h]
    exact hr

theorem read_world_of_sentinel (k0 : SenseLine) (w : World)
    (h : (destructiveRead k0 w).1 = -1) :
    (read k0 w).2 = (destructiveRead k0 w).2 := by
  unfold read
  simp [h]

theorem read_guides_low (k0 : SenseLine) (w : World)
    (h1 : w.g1 = false) (h2 : w.g2 = false) :
    (read k0 w).2.g1 = false ∧ (read k0 w).2.g2 = false := by
  have hr : (reset k0 w).2.g1 = false ∧ (reset k0 w).2.g2 = false :=
    resetLoop_guides_low k0 MAX_ATTEMPTS w h1 h2
  by_cases h : (destructiveRead k0 w).1 = -1
  · rw [read_world_of_sentinel k0 w h, destructiveRead_world]
    exact hr
  · rw [read_world_of_reading k0 w h, destructiveRead_world]
    exact set_guides_low k0 _ (reset k0 w).2 hr.1 hr.2

theorem resetLoop_stuckLow_error (n : Nat) :
    ∀ w : World, (resetLoop stuckLowK0 n w).1 = 1 := by
  induction n with
  | zero => intro w; rfl
  | succ n ih =>
    intro w
    rw [resetLoop_succ]
    simpa [senseAfterStep_stuckLow] using ih (afterAttempt stuckLowK0 w)

theorem reset_stuckLow_error (w : World) : (reset stuckLowK0 w).1 = 1 :=
  resetLoop_stuckLow_error MAX_ATTEMPTS w

theorem mainLoop_leds (k0 : SenseLine) (n : Nat) :
    ∀ b : Board, (mainLoop k0 n b).led2 = b.led2 ∧ (mainLoop k0 n b).led3 = b.led3 := by
  induction n with
  | zero => intro b; exact ⟨rfl, rfl⟩
  | succ n ih =>
    intro b
    simp only [mainLoop]
    rw [(ih _).1, (ih _).2]
    exact ⟨rfl, rfl⟩

/-! ## The shape of the traces and the settling of the samples -/

theorem attempts_append (xs ys : List Bool) :
    attempts (xs ++ ys) = attempts xs ++ attempts ys := by
  induction xs with
  | nil => rfl
  | cons x xs ih => simp [attempts, ih]

theorem resetLoop_shape (k0 : SenseLine) (n : Nat) :
    ∀ w : World, ∃ bs : List Bool, (0 < n → bs ≠ []) ∧
      (resetLoop k0 n w).2.trace = w.trace ++ attempts bs := by
  induction n with
  | zero => intro w; exact ⟨[], by simp, by simp [resetLoop, attempts]⟩
  | succ n ih =>
    intro w
    rw [resetLoop_succ]
    by_cases h : senseAfterStep k0 w = true
    · refine ⟨[true], by simp, ?_⟩
      simp [h, afterAttempt_trace, attempts]
    · obtain ⟨bs, _, hbs⟩ := ih (afterAttempt k0 w)
      simp only [Bool.not_eq_true] at h
      refine ⟨false :: bs, by simp, ?_⟩
      simp [h, hbs, afterAttempt_trace, attempts]

theorem reset_shape (k0 : SenseLine) (w : World) :
    HomingsThenSteps (emitted w (reset k0 w).2) := by
  obtain ⟨bs, hne, hbs⟩ := resetLoop_shape k0 MAX_ATTEMPTS w
  refine ⟨bs, 0, hne (by decide), ?_⟩
  rw [emitted_of_trace w (reset k0 w).2 _ hbs]
  simp [repeatTrace]

theorem set_shape (k0 : SenseLine) (N : Nat) (w : World) :
    HomingsThenSteps (emitted w (set k0 N w).2) := by
  obtain ⟨bs, hne, hbs⟩ := resetLoop_shape k0 MAX_ATTEMPTS w
  have hbs2 : (reset k0 w).2.trace = w.trace ++ attempts bs := hbs
  by_cases h : (reset k0 w).1 = 0
  · refine ⟨bs, N, hne (by decide), ?_⟩
    apply emitted_of_trace
    rw [set_of_success k0 N w h, setLoop_trace, hbs2, List.append_assoc]
  · refine ⟨bs, 0, hne (by decide), ?_⟩
    apply emitted_of_trace
    rw [set_of_fail k0 N w h, hbs2]
    simp [repeatTrace]

theorem destructiveRead_shape (k0 : SenseLine) (w : World) :
    HomingsThenSteps (emitted w (destructiveRead k0 w).2) := by
  rw [destructiveRead_world]
  exact reset_shape k0 w

theorem emitted_trans (w w1 w2 : World) (t1 t2 : List Event)
    (h1 : emitted w w1 = t1) (h2 : emitted w1 w2 = t2)
    (e1 : w1.trace = w.trace ++ emitted w w1) (e2 : w2.trace = w1.trace ++ emitted w1 w2) :
    emitted w w2 = t1 ++ t2 := by
  apply emitted_of_trace
  rw [e2, e1, h1, h2, List.append_assoc]

theorem resetLoop_trace_extends (k0 : SenseLine) (n : Nat) (w : World) :
    (resetLoop k0 n w).2.trace = w.trace ++ emitted w (resetLoop k0 n w).2 := by
  obtain ⟨bs, _, hbs⟩ := resetLoop_shape k0 n w
  rw [emitted_of_trace w _ _ hbs, hbs]

theorem set_trace_extends (k0 : SenseLine) (N : Nat) (w : World) :
    (set k0 N w).2.trace = w.trace ++ emitted w (set k0 N w).2 := by
  have hr : (reset k0 w).2.trace = w.trace ++ emitted w (reset k0 w).2 :=
    resetLoop_trace_extends k0 MAX_ATTEMPTS w
  by_cases h : (reset k0 w).1 = 0
  · have e : (set k0 N w).2.trace =
        w.trace ++ (emitted w (reset k0 w).2 ++ repeatTrace N forwardPulse) := by
      rw [set_of_success k0 N w h, setLoop_trace, hr, List.append_assoc]
    rw [emitted_of_trace w _ _ e, e]
  · rw [set_of_fail k0 N w h]
    exact hr

theorem read_shape (k0 : SenseLine) (w : World) :
    HomingsThenSteps (emitted w (read k0 w).2) := by
  by_cases h : (destructiveRead k0 w).1 = -1
  · rw [read_world_of_sentinel k0 w h]
    exact destructiveRead_shape k0 w
  · obtain ⟨bs1, hne, hbs⟩ := resetLoop_shape k0 MAX_ATTEMPTS w
    have hne1 : bs1 ≠ [] := hne (by decide)
    have hbs1 : (reset k0 w).2.trace = w.trace ++ attempts bs1 := hbs
    obtain ⟨bs2, m2, _, h2⟩ :=
      set_shape k0 (toUInt32 (destructiveRead k0 w).1) (reset k0 w).2
    have hm : emitted w (reset k0 w).2 = attempts bs1 :=
      emitted_of_trace w (reset k0 w).2 _ hbs1
    rw [read_world_of_reading k0 w h, destructiveRead_world]
    refine ⟨bs1 ++ bs2, m2, by simp [hne1], ?_⟩
    rw [emitted_trans w (reset k0 w).2 _ _ _ hm h2
      (resetLoop_trace_extends k0 MAX_ATTEMPTS w) (set_trace_extends k0 _ _),
      attempts_append, List.append_assoc]

theorem settled_attempt (ok b : Bool) (l : List Event) :
    settled ok (attempt b ++ l) = settled false l := by
  simp [attempt, forwardPulse, settled]

theorem settled_attempts (bs : List Bool) (l : List Event) :
    settled false (attempts bs ++ l) = settled false l := by
  induction bs with
  | nil => rfl
  | cons b bs ih => rw [attempts, List.append_assoc, settled_attempt, ih]

theorem settled_repeat_pulse (n : Nat) :
    ∀ ok : Bool, settled ok (repeatTrace n forwardPulse) = true := by
  induction n with
  | zero => intro ok; rfl
  | succ n ih =>
    intro ok
    have h := ih true
    simpa [repeatTrace, forwardPulse, settled] using h

theorem startsWith_attempts (bs : List Bool) (l : List Event) (h : bs ≠ []) :
    startsWith forwardPulse (attempts bs ++ l) = true := by
  cases bs with
  | nil => exact absurd rfl h
  | cons b bs => simp [attempts, attempt, forwardPulse, startsWith]

theorem shape_settled (t : List Event) (h : HomingsThenSteps t) :
    settled false t = true ∧ startsWith forwardPulse t = true := by
  obtain ⟨bs, m, hne, rfl⟩ := h
  exact ⟨by rw [settled_attempts, settled_repeat_pulse], startsWith_attempts bs _ hne⟩

theorem forwardSteps_homing_then_steps (k N : Nat) :
    forwardSteps ((repeatTrace k (attempt false) ++ attempt true) ++
      repeatTrace N forwardPulse) = k + 1 + N := by
  rw [List.append_assoc, forwardSteps_repeat_attempt, forwardSteps_attempt,
    forwardSteps_repeat_pulse_nil]
  omega

theorem set_healthy_trace (P : Nat) (hP : P < 10) (N : Nat) (w : World) (hw : w.idleAt P) :
    (set healthyK0 N w).2.trace =
      w.trace ++ ((repeatTrace (homingSteps P - 1) (attempt false) ++ attempt true) ++
        repeatTrace N forwardPulse) := by
  obtain ⟨r1, _, r3⟩ := reset_healthy P hP w hw
  rw [set_of_success healthyK0 N w r1, setLoop_trace, r3, List.append_assoc]

theorem homingSteps_pos (P : Nat) (hP : P < 10) :
    homingSteps P - 1 + 1 = (if P = 0 then 10 else 10 - P) := by
  unfold homingSteps
  split <;> omega

/-! ## The entry point -/

theorem sleep_for_idleAt (ms : Nat) (w : World) (p : Nat) (hw : w.idleAt p) :
    (sleep_for ms w).idleAt p := hw

theorem sweepLoop_split (k0 : SenseLine) (a : Nat) :
    ∀ (b i : Nat) (w : World),
      sweepLoop k0 (a + b) i w = sweepLoop k0 b (i + a) (sweepLoop k0 a i w) := by
  induction a with
  | zero => intro b i w; simp [sweepLoop]
  | succ a ih =>
    intro b i w
    have e : a + 1 + b = (a + b) + 1 := by omega
    have e2 : i + (a + 1) = i + 1 + a := by omega
    rw [e, e2]
    simp only [sweepLoop]
    exact ih b (i + 1) _

theorem sweepLoop_last (k0 : SenseLine) (n i : Nat) (w : World) :
    sweepLoop k0 (n + 1) i w =
      sleep_for PULSE_RATE (set k0 (i + n) (sweepLoop k0 n i w)).2 := by
  rw [sweepLoop_split k0 n 1 i w]
  rfl

theorem sweepLoop_healthy (n : Nat) :
    ∀ (i : Nat) (w : World) (p : Nat), p < 10 → w.idleAt p →
      ∃ q, q < 10 ∧ (sweepLoop healthyK0 n i w).idleAt q := by
  induction n with
  | zero => intro i w p hp hw; exact ⟨p, hp, hw⟩
  | succ n ih =>
    intro i w p hp hw
    have hs := (set_healthy p hp i w hw).2
    exact ih (i + 1) _ (i % 10) (by omega) (sleep_for_idleAt PULSE_RATE _ _ hs)

theorem mainEntry_led2 (k0 : SenseLine) (tube : Tube) :
    (mainEntry k0 (powerUp tube)).led2 = pinLevel (reset k0 (powerUp tube).world).1 := rfl

theorem mainEntry_led3 (k0 : SenseLine) (tube : Tube) :
    (mainEntry k0 (powerUp tube)).led3 =
      pinLevel (set k0 9 (afterInitialReset k0 tube)).1 := rfl

theorem mainEntry_world (k0 : SenseLine) (tube : Tube) :
    (mainEntry k0 (powerUp tube)).world = (initialRead k0 tube).2 := rfl

theorem main_first_sweep (k0 : SenseLine) (tube : Tube) :
    (main k0 tube 1).world = sweepLoop k0 10 0 (initialRead k0 tube).2 := rfl

theorem mainEntry_healthy (P : Nat) (hP : P < 10) :
    (afterInitialReset healthyK0 ⟨P, Phase.idle⟩).idleAt 0 ∧
    (reset healthyK0 (powerUp ⟨P, Phase.idle⟩).world).1 = 0 ∧
    (afterInitialSet healthyK0 ⟨P, Phase.idle⟩).idleAt 9 ∧
    (set healthyK0 9 (afterInitialReset healthyK0 ⟨P, Phase.idle⟩)).1 = 0 ∧
    (initialRead healthyK0 ⟨P, Phase.idle⟩).1 = 9 ∧
    (initialRead healthyK0 ⟨P, Phase.idle⟩).2.idleAt 9 := by
  have h0 : (powerUp ⟨P, Phase.idle⟩).world.idleAt P := ⟨rfl, rfl, rfl, rfl⟩
  obtain ⟨r1, r2, _⟩ := reset_healthy P hP _ h0
  have hs := set_healthy 0 (by omega) 9 (afterInitialReset healthyK0 ⟨P, Phase.idle⟩) r2
  have hs2 : (afterInitialSet healthyK0 ⟨P, Phase.idle⟩).idleAt 9 := hs.2
  have hr := read_healthy 9 (by omega) _ (sleep_for_idleAt 500 _ 9 hs2)
  exact ⟨r2, r1, hs2, hs.1, by simpa using hr.1, hr.2⟩

theorem read_steps_oracle (f : Nat → Bool) (i : Nat) (w : World) (hi : i < 100)
    (hlow : ∀ j, j < i → f (w.samples + j) = false) (hhigh : f (w.samples + i) = true)
    (hne : Int.tmod (10 - (i : Int) - 1) 10 ≠ -1) (hnext : f (w.samples + i + 1) = true) :
    forwardSteps (emitted w (read (oracleK0 f) w).2) =
      i + 1 + 1 + toUInt32 (Int.tmod (10 - (i : Int) - 1) 10) := by
  have hd := destructiveRead_oracle_first f i w hi hlow hhigh
  have r : (reset (oracleK0 f) w).1 = 0 ∧
      (reset (oracleK0 f) w).2.trace =
        w.trace ++ (repeatTrace i (attempt false) ++ attempt true) ∧
      (reset (oracleK0 f) w).2.samples = w.samples + i + 1 :=
    resetLoop_oracle_first f i 100 w hi hlow hhigh
  obtain ⟨_, rt, rs⟩ := r
  have r2 : (reset (oracleK0 f) (reset (oracleK0 f) w).2).1 = 0 ∧
      (reset (oracleK0 f) (reset (oracleK0 f) w).2).2.trace =
        (reset (oracleK0 f) w).2.trace ++ (repeatTrace 0 (attempt false) ++ attempt true) ∧
      (reset (oracleK0 f) (reset (oracleK0 f) w).2).2.samples =
        (reset (oracleK0 f) w).2.samples + 0 + 1 :=
    resetLoop_oracle_first f 0 100 (reset (oracleK0 f) w).2 (by omega)
      (fun j hj => absurd hj (by omega)) (by rw [rs]; exact hnext)
  obtain ⟨s1, st, _⟩ := r2
  have hr : (destructiveRead (oracleK0 f) w).1 ≠ -1 := by rw [hd]; exact hne
  have ht : (read (oracleK0 f) w).2.trace =
      w.trace ++ ((repeatTrace i (attempt false) ++ attempt true) ++
        ((repeatTrace 0 (attempt false) ++ attempt true) ++
          repeatTrace (toUInt32 (Int.tmod (10 - (i : Int) - 1) 10)) forwardPulse)) := by
    rw [read_world_of_reading (oracleK0 f) w hr, destructiveRead_world, hd,
      set_of_success (oracleK0 f) _ _ s1, setLoop_trace, st, rt]
    simp only [List.append_assoc]
  rw [emitted_of_trace w _ _ ht, List.append_assoc, forwardSteps_repeat_attempt,
    forwardSteps_attempt, List.append_assoc, forwardSteps_repeat_attempt,
    forwardSteps_attempt, forwardSteps_repeat_pulse_nil]
  omega

/-! ## The claims -/

/-- Claim C1. On a healthy simulated tube resting at any position P in 0..9,
the non-destructive read returns P and the tube is at position P again after
the call. -/
theorem read_healthy_returns_and_restores (P : Nat) (hP : P < 10) (w : World)
    (hw : w.idleAt P) :
    (read healthyK0 w).1 = (P : Int) ∧ (read healthyK0 w).2.tube.pos = P :=
  ⟨(read_healthy P hP w hw).1, (read_healthy P hP w hw).2.2.2.2⟩

/-- Scenario 3 of the spec: from position 4 the read returns 4 and the tube
stays at 4. -/
theorem read_healthy_returns_and_restores_witness :
    4 < 10 ∧ (World.start 4).idleAt 4 ∧
    (read healthyK0 (World.start 4)).1 = 4 ∧
    (read healthyK0 (World.start 4)).2.tube.pos = 4 :=
  ⟨by decide, start_idleAt 4,
    read_healthy_returns_and_restores 4 (by decide) (World.start 4) (start_idleAt 4)⟩

/-- Claim C2. On a healthy simulated tube resting at any position P in 0..9,
destructiveRead returns P (so 0 when P is 0) and leaves the tube at
position 0. -/
theorem destructiveRead_healthy_returns_and_homes (P : Nat) (hP : P < 10) (w : World)
    (hw : w.idleAt P) :
    (destructiveRead healthyK0 w).1 = (P : Int) ∧
    (destructiveRead healthyK0 w).2.tube.pos = 0 := by
  refine ⟨destructiveRead_healthy P hP w hw, ?_⟩
  rw [destructiveRead_world]
  exact (reset_healthy P hP w hw).2.1.2.2.2

/-- Scenario 2 of the spec: from position 0 the destructive read returns 0
and the tube is at 0 afterwards. -/
theorem destructiveRead_healthy_returns_and_homes_witness :
    0 < 10 ∧ (World.start 0).idleAt 0 ∧
    (destructiveRead healthyK0 (World.start 0)).1 = 0 ∧
    (destructiveRead healthyK0 (World.start 0)).2.tube.pos = 0 :=
  ⟨by decide, start_idleAt 0,
    destructiveRead_healthy_returns_and_homes 0 (by decide) (World.start 0) (start_idleAt 0)⟩

/-- Claim C3. On a healthy simulated tube resting at any position, set(N)
returns 0 for every 32-bit unsigned N and leaves the tube at N mod 10; hence
set(P) followed by set(Q), with P and Q in 0..9, leaves the tube at Q. -/
theorem set_healthy_reaches_number (p0 : Nat) (h0 : p0 < 10) (w : World)
    (hw : w.idleAt p0) (N : Nat) (_hN : N < 4294967296)
    (P Q : Nat) (_hP : P < 10) (hQ : Q < 10) :
    (set healthyK0 N w).1 = 0 ∧ (set healthyK0 N w).2.tube.pos = N % 10 ∧
    (set healthyK0 P w).1 = 0 ∧ (set healthyK0 Q (set healthyK0 P w).2).1 = 0 ∧
    (set healthyK0 Q (set healthyK0 P w).2).2.tube.pos = Q := by
  have hN := set_healthy p0 h0 N w hw
  have hPs := set_healthy p0 h0 P w hw
  have hQs := set_healthy (P % 10) (by omega) Q (set healthyK0 P w).2 hPs.2
  have e : Q % 10 = Q := by omega
  rw [e] at hQs
  exact ⟨hN.1, hN.2.2.2.2, hPs.1, hQs.1, hQs.2.2.2.2⟩

/-- From position 5: set(4294967295) ends at 5, and set(7) then set(3) ends
at 3. -/
theorem set_healthy_reaches_number_witness :
    5 < 10 ∧ (World.start 5).idleAt 5 ∧ 4294967295 < 4294967296 ∧ 7 < 10 ∧ 3 < 10 ∧
    (set healthyK0 4294967295 (World.start 5)).1 = 0 ∧
    (set healthyK0 4294967295 (World.start 5)).2.tube.pos = 4294967295 % 10 ∧
    (set healthyK0 7 (World.start 5)).1 = 0 ∧
    (set healthyK0 3 (set healthyK0 7 (World.start 5)).2).1 = 0 ∧
    (set healthyK0 3 (set healthyK0 7 (World.start 5)).2).2.tube.pos = 3 :=
  ⟨by decide, start_idleAt 5, by decide, by decide, by decide,
    set_healthy_reaches_number 5 (by decide) (World.start 5) (start_idleAt 5)
      4294967295 (by decide) 7 3 (by decide) (by decide)⟩

/-- Claim C4. Round trip on a healthy simulated tube: from any start position
and for every P in 0..9, set(P) succeeds, the following read returns P, and the
tube is at position P after both calls. -/
theorem set_then_read_round_trip (p0 : Nat) (h0 : p0 < 10) (w : World)
    (hw : w.idleAt p0) (P : Nat) (hP : P < 10) :
    (set healthyK0 P w).1 = 0 ∧
    (read healthyK0 (set healthyK0 P w).2).1 = (P : Int) ∧
    (read healthyK0 (set healthyK0 P w).2).2.tube.pos = P := by
  have hs := set_healthy p0 h0 P w hw
  have e : P % 10 = P := by omega
  rw [e] at hs
  have hr := read_healthy P hP (set healthyK0 P w).2 hs.2
  exact ⟨hs.1, hr.1, hr.2.2.2.2⟩

/-- From position 2: set(8) then read returns 8 with the tube at 8. -/
theorem set_then_read_round_trip_witness :
    2 < 10 ∧ (World.start 2).idleAt 2 ∧ 8 < 10 ∧
    (set healthyK0 8 (World.start 2)).1 = 0 ∧
    (read healthyK0 (set healthyK0 8 (World.start 2)).2).1 = 8 ∧
    (read healthyK0 (set healthyK0 8 (World.start 2)).2).2.tube.pos = 8 :=
  ⟨by decide, start_idleAt 2, by decide,
    set_then_read_round_trip 2 (by decide) (World.start 2) (start_idleAt 2) 8 (by decide)⟩

/-- Claim C5. For every sample sequence `f` of K0 and every entry world, reset
returns 0 exactly when one of its first 100 samples is high, and 1 otherwise;
the sample number i is taken after i + 1 forward steps; a failed reset has
emitted exactly 100 forward steps, each followed by the settling wait and a
low sample; and with the sense line stuck low a tube resting at P in 0..9
rests at P again after the 100 steps. -/
theorem reset_succeeds_iff_sense_within_bound (f : Nat → Bool) (w : World) :
    ((reset (oracleK0 f) w).1 = 0 ↔ ∃ i, i < 100 ∧ f (w.samples + i) = true) ∧
    ((reset (oracleK0 f) w).1 = 0 ∨ (reset (oracleK0 f) w).1 = 1) ∧
    (∀ i, i < 100 → (∀ j, j < i → f (w.samples + j) = false) →
      f (w.samples + i) = true →
      emitted w (reset (oracleK0 f) w).2 = repeatTrace i (attempt false) ++ attempt true ∧
      forwardSteps (emitted w (reset (oracleK0 f) w).2) = i + 1) ∧
    ((reset (oracleK0 f) w).1 = 1 →
      emitted w (reset (oracleK0 f) w).2 = repeatTrace 100 (attempt false) ∧
      forwardSteps (emitted w (reset (oracleK0 f) w).2) = 100) ∧
    (∀ P, P < 10 → w.idleAt P →
      (reset stuckLowK0 w).1 = 1 ∧
      forwardSteps (emitted w (reset stuckLowK0 w).2) = 100 ∧
      (reset stuckLowK0 w).2.tube.pos = (P + 100) % 10 ∧
      (reset stuckLowK0 w).2.tube.pos = P) := by
  refine ⟨resetLoop_oracle_iff f 100 w, resetLoop_error (oracleK0 f) 100 w, ?_, ?_, ?_⟩
  · intro i hi hlow hhigh
    have h := (resetLoop_oracle_first f i 100 w hi hlow hhigh).2.1
    have e := emitted_of_trace w (reset (oracleK0 f) w).2 _ h
    rw [e]
    exact ⟨rfl, forwardSteps_homing i⟩
  · intro hfail
    have h := (resetLoop_fail (oracleK0 f) 100 w hfail).1
    have e := emitted_of_trace w (reset (oracleK0 f) w).2 _ h
    rw [e]
    exact ⟨rfl, forwardSteps_repeat_attempt_nil false 100⟩
  · intro P hP hw
    obtain ⟨r1, r2⟩ := resetLoop_stuckLow 100 w P hP hw
    have h := (resetLoop_fail stuckLowK0 100 w r1).1
    have e := emitted_of_trace w (reset stuckLowK0 w).2 _ h
    rw [e]
    refine ⟨r1, forwardSteps_repeat_attempt_nil false 100, r2.2.2.2, ?_⟩
    have e2 : (reset stuckLowK0 w).2.tube.pos = (P + 100) % 10 := r2.2.2.2
    rw [e2]
    omega

/-- Scenario 4 of the spec: from position 3 with the sense line stuck low,
reset fails after exactly 100 forward steps and the tube is at 3; and with a
sample sequence that is high on sample 2 only, reset succeeds after 3 steps. -/
theorem reset_succeeds_iff_sense_within_bound_witness :
    ((reset stuckLowK0 (World.start 3)).1 = 1 ∧
      forwardSteps (emitted (World.start 3) (reset stuckLowK0 (World.start 3)).2) = 100 ∧
      (reset stuckLowK0 (World.start 3)).2.tube.pos = (3 + 100) % 10 ∧
      (reset stuckLowK0 (World.start 3)).2.tube.pos = 3) ∧
    ((reset (oracleK0 (highOnlyAt 2)) (World.start 3)).1 = 0 ↔
      ∃ i, i < 100 ∧ highOnlyAt 2 ((World.start 3).samples + i) = true) ∧
    forwardSteps (emitted (World.start 3)
      (reset (oracleK0 (highOnlyAt 2)) (World.start 3)).2) = 2 + 1 :=
  ⟨(reset_succeeds_iff_sense_within_bound (fun _ => false) (World.start 3)).2.2.2.2
      3 (by decide) (start_idleAt 3),
    (reset_succeeds_iff_sense_within_bound (highOnlyAt 2) (World.start 3)).1,
    ((reset_succeeds_iff_sense_within_bound (highOnlyAt 2) (World.start 3)).2.2.1
      2 (by decide) (by decide) (by decide)).2⟩

/-- Claim C6. On a healthy simulated tube resting at P in 0..9, reset returns
0, leaves the tube at position 0, and emits exactly 10 - P forward steps when
P is at least 1 and exactly 10 when P is 0, never more than 10. -/
theorem reset_healthy_homes_within_one_revolution (P : Nat) (hP : P < 10) (w : World)
    (hw : w.idleAt P) :
    (reset healthyK0 w).1 = 0 ∧ (reset healthyK0 w).2.tube.pos = 0 ∧
    forwardSteps (emitted w (reset healthyK0 w).2) = (if P = 0 then 10 else 10 - P) ∧
    forwardSteps (emitted w (reset healthyK0 w).2) ≤ 10 := by
  obtain ⟨r1, r2, r3⟩ := reset_healthy P hP w hw
  have e := emitted_of_trace w (reset healthyK0 w).2 _ r3
  rw [e, forwardSteps_homing]
  refine ⟨r1, r2.2.2.2, ?_, ?_⟩ <;> unfold homingSteps <;> split <;> omega

/-- Scenario 1 of the spec: from position 7 homing succeeds after 3 forward
steps and the tube is at 0. -/
theorem reset_healthy_homes_within_one_revolution_witness :
    7 < 10 ∧ (World.start 7).idleAt 7 ∧
    (reset healthyK0 (World.start 7)).1 = 0 ∧
    (reset healthyK0 (World.start 7)).2.tube.pos = 0 ∧
    forwardSteps (emitted (World.start 7) (reset healthyK0 (World.start 7)).2) = 3 ∧
    forwardSteps (emitted (World.start 7) (reset healthyK0 (World.start 7)).2) ≤ 10 :=
  ⟨by decide, start_idleAt 7,
    reset_healthy_homes_within_one_revolution 7 (by decide) (World.start 7) (start_idleAt 7)⟩

/-- Claim C7. For every sense line, every N and every entry world, set(N)
returns exactly what its homing returns, so it succeeds iff the homing does;
when the homing fails, set returns 1 and stops in the world the homing left,
after the 100 forward steps of the homing and no more; when the homing
succeeds, set emits exactly N further forward steps and nothing else. -/
theorem set_propagates_homing (k0 : SenseLine) (N : Nat) (w : World) :
    (set k0 N w).1 = (reset k0 w).1 ∧
    ((set k0 N w).1 = 0 ↔ (reset k0 w).1 = 0) ∧
    ((reset k0 w).1 ≠ 0 →
      (set k0 N w).1 = 1 ∧ (set k0 N w).2 = (reset k0 w).2 ∧
      forwardSteps (emitted w (set k0 N w).2) = 100) ∧
    ((reset k0 w).1 = 0 →
      emitted (reset k0 w).2 (set k0 N w).2 = repeatTrace N forwardPulse ∧
      forwardSteps (emitted (reset k0 w).2 (set k0 N w).2) = N) := by
  refine ⟨set_error k0 N w, by rw [set_error], ?_, ?_⟩
  · intro hne
    have h1 : (reset k0 w).1 = 1 := by
      rcases resetLoop_error k0 100 w with e | e
      · exact absurd e hne
      · exact e
    have ht := (resetLoop_fail k0 100 w h1).1
    rw [set_error, set_of_fail k0 N w hne, emitted_of_trace w (reset k0 w).2 _ ht]
    exact ⟨h1, rfl, forwardSteps_repeat_attempt_nil false 100⟩
  · intro h0
    have ht := setLoop_trace N (reset k0 w).2
    rw [set_of_success k0 N w h0, emitted_of_trace (reset k0 w).2 _ _ ht]
    exact ⟨rfl, forwardSteps_repeat_pulse_nil N⟩

/-- Scenario 6 of the spec on the success side (from position 5, set(9)
emits 9 steps after its homing) and a stuck sense line on the failure side
(set(9) returns 1 after the 100 steps of the homing). -/
theorem set_propagates_homing_witness :
    (reset healthyK0 (World.start 5)).1 = 0 ∧
    (emitted (reset healthyK0 (World.start 5)).2 (set healthyK0 9 (World.start 5)).2 =
        repeatTrace 9 forwardPulse ∧
      forwardSteps
        (emitted (reset healthyK0 (World.start 5)).2 (set healthyK0 9 (World.start 5)).2) = 9) ∧
    (reset stuckLowK0 (World.start 5)).1 ≠ 0 ∧
    ((set stuckLowK0 9 (World.start 5)).1 = 1 ∧
      (set stuckLowK0 9 (World.start 5)).2 = (reset stuckLowK0 (World.start 5)).2 ∧
      forwardSteps (emitted (World.start 5) (set stuckLowK0 9 (World.start 5)).2) = 100) :=
  ⟨(reset_healthy 5 (by decide) (World.start 5) (start_idleAt 5)).1,
    (set_propagates_homing healthyK0 9 (World.start 5)).2.2.2
      (reset_healthy 5 (by decide) (World.start 5) (start_idleAt 5)).1,
    by rw [(reset_stuckLow (World.start 5) 5 (by decide) (start_idleAt 5)).1]; decide,
    (set_propagates_homing stuckLowK0 9 (World.start 5)).2.2.1
      (by rw [(reset_stuckLow (World.start 5) 5 (by decide) (start_idleAt 5)).1]; decide)⟩

/-- Claim C8, evaluated where the code departs from it.  The sense line is
high on the very first sample and low ever after: the destructive read inside
read succeeds with reading 9, the following set fails (its homing times out
and it returns 1), and read nevertheless returns 9 instead of -1, because it
compares the result of set with -1 while set reports failure as 1. -/
theorem read_returns_reading_although_set_failed :
    (destructiveRead (oracleK0 (highOnlyAt 0)) (World.start 0)).1 = 9 ∧
    (set (oracleK0 (highOnlyAt 0)) (toUInt32 9)
      (destructiveRead (oracleK0 (highOnlyAt 0)) (World.start 0)).2).1 = 1 ∧
    (read (oracleK0 (highOnlyAt 0)) (World.start 0)).1 = 9 ∧
    (read (oracleK0 (highOnlyAt 0)) (World.start 0)).1 ≠ -1 := by
  decide

/-- Claim C9, evaluated where the code departs from it.  The sense line first
reads high on iteration 10 (the eleventh sample), well within the 100
attempts, so the homing on the same input succeeds; destructiveRead
nevertheless returns -1, the failure sentinel, because the signed remainder
of -1 by 10 is -1, where the claim has 9. -/
theorem destructiveRead_sentinel_although_sense_asserted :
    highOnlyAt 10 10 = true ∧
    (reset (oracleK0 (highOnlyAt 10)) (World.start 0)).1 = 0 ∧
    (destructiveRead (oracleK0 (highOnlyAt 10)) (World.start 0)).1 = -1 ∧
    Int.tmod (10 - 10 - 1) 10 = -1 ∧ ((10 - 10 - 1 : Int) % 10 = 9) := by
  decide

/-- Claim C10, evaluated where the code departs from it.  The sense line
first reads high on iteration 11: destructiveRead returns -2, which is
neither the sentinel -1 nor a position in 0..9. -/
theorem destructiveRead_out_of_range :
    (destructiveRead (oracleK0 (highOnlyAt 11)) (World.start 0)).1 = -2 ∧
    ¬ ((destructiveRead (oracleK0 (highOnlyAt 11)) (World.start 0)).1 = -1 ∨
      (0 ≤ (destructiveRead (oracleK0 (highOnlyAt 11)) (World.start 0)).1 ∧
        (destructiveRead (oracleK0 (highOnlyAt 11)) (World.start 0)).1 ≤ 9)) := by
  decide

/-- Claim C11. With a sense line that never reads high, from every entry
world (so from every start position) reset returns 1, set(N) returns 1 for
every N, destructiveRead returns -1 and read returns -1; the entry sequence
of main therefore shows 1 on led2 (homing error) and 1 on led3 (set error),
and the endless loop leaves both as they are. -/
theorem never_asserting_sense_fails_every_operation (w : World) (N : Nat) (tube : Tube)
    (n : Nat) :
    oracleK0 (fun _ => false) = stuckLowK0 ∧
    (reset stuckLowK0 w).1 = 1 ∧ (set stuckLowK0 N w).1 = 1 ∧
    (destructiveRead stuckLowK0 w).1 = -1 ∧ (read stuckLowK0 w).1 = -1 ∧
    (mainEntry stuckLowK0 (powerUp tube)).led2 = 1 ∧
    (mainEntry stuckLowK0 (powerUp tube)).led3 = 1 ∧
    (main stuckLowK0 tube n).led2 = 1 ∧ (main stuckLowK0 tube n).led3 = 1 := by
  have hr := reset_stuckLow_error
  have hd : (destructiveRead stuckLowK0 w).1 = -1 :=
    destructiveRead_of_fail stuckLowK0 w (hr w)
  have e2 : (mainEntry stuckLowK0 (powerUp tube)).led2 = 1 := by
    rw [mainEntry_led2, hr]
    rfl
  have e3 : (mainEntry stuckLowK0 (powerUp tube)).led3 = 1 := by
    rw [mainEntry_led3, set_error, hr]
    rfl
  refine ⟨rfl, hr w, by rw [set_error, hr], hd, by rw [read_value, hd], e2, e3, ?_, ?_⟩
  · unfold main
    rw [(mainLoop_leds stuckLowK0 n _).1, e2]
  · unfold main
    rw [(mainLoop_leds stuckLowK0 n _).2, e3]

/-- Claim C12. For count in either direction, reset, set, destructiveRead and
read, with any sense line and any argument: if G1 and G2 are both low on
entry, they are both low on exit. -/
theorem guides_low_on_exit (k0 : SenseLine) (forward : Bool) (N : Nat) (w : World)
    (h1 : w.g1 = false) (h2 : w.g2 = false) :
    ((count forward w).g1 = false ∧ (count forward w).g2 = false) ∧
    ((reset k0 w).2.g1 = false ∧ (reset k0 w).2.g2 = false) ∧
    ((set k0 N w).2.g1 = false ∧ (set k0 N w).2.g2 = false) ∧
    ((destructiveRead k0 w).2.g1 = false ∧ (destructiveRead k0 w).2.g2 = false) ∧
    ((read k0 w).2.g1 = false ∧ (read k0 w).2.g2 = false) := by
  have hr : (reset k0 w).2.g1 = false ∧ (reset k0 w).2.g2 = false :=
    resetLoop_guides_low k0 MAX_ATTEMPTS w h1 h2
  refine ⟨count_guides_low forward w, hr, set_guides_low k0 N w h1 h2, ?_,
    read_guides_low k0 w h1 h2⟩
  rw [destructiveRead_world]
  exact hr

/-- A reverse step, and the four routines with argument 7 on a healthy tube
found at position 4 with both guides low, leave both guides low. -/
theorem guides_low_on_exit_witness :
    (World.start 4).g1 = false ∧ (World.start 4).g2 = false ∧
    ((count false (World.start 4)).g1 = false ∧ (count false (World.start 4)).g2 = false) ∧
    ((reset healthyK0 (World.start 4)).2.g1 = false ∧
      (reset healthyK0 (World.start 4)).2.g2 = false) ∧
    ((set healthyK0 7 (World.start 4)).2.g1 = false ∧
      (set healthyK0 7 (World.start 4)).2.g2 = false) ∧
    ((destructiveRead healthyK0 (World.start 4)).2.g1 = false ∧
      (destructiveRead healthyK0 (World.start 4)).2.g2 = false) ∧
    ((read healthyK0 (World.start 4)).2.g1 = false ∧
      (read healthyK0 (World.start 4)).2.g2 = false) :=
  ⟨rfl, rfl, guides_low_on_exit healthyK0 false 7 (World.start 4) rfl rfl⟩

/-- Claim C13. Whatever the entry world, count(forward = true) emits exactly
G1 high, wait 250, G2 high, wait 250, G1 low, wait 250, G2 low, wait 250, and
count(forward = false) emits exactly that trace with G1 and G2 exchanged; in
both, every guide write is directly followed by a wait of 250 microseconds. -/
theorem count_emits_four_phase_sequence (w : World) :
    emitted w (count true w) =
      [Event.g1 true, Event.wait 250, Event.g2 true, Event.wait 250,
       Event.g1 false, Event.wait 250, Event.g2 false, Event.wait 250] ∧
    emitted w (count false w) =
      [Event.g2 true, Event.wait 250, Event.g1 true, Event.wait 250,
       Event.g2 false, Event.wait 250, Event.g1 false, Event.wait 250] ∧
    emitted w (count false w) = List.map swapGuides (emitted w (count true w)) ∧
    PULSE_WIDTH_US = 250 ∧
    writesSpaced (emitted w (count true w)) = true ∧
    writesSpaced (emitted w (count false w)) = true := by
  have hf := emitted_of_trace w (count true w) _ (count_forward_trace w)
  have hr := emitted_of_trace w (count false w) _ (count_reverse_trace w)
  rw [hf, hr]
  exact ⟨rfl, rfl, rfl, rfl, by decide, by decide⟩

/-- Claim C14. In the trace emitted by reset, set, destructiveRead and read,
for every sense line, argument and entry world, every K0 sample comes directly
after a wait of 250 microseconds (the settling wait), so no guide write lies
between that wait and the sample, and the trace begins with a complete forward
step, so K0 is not sampled before the first step. -/
theorem samples_follow_settling_wait (k0 : SenseLine) (N : Nat) (w : World) :
    SETTLING_TIME_US = 250 ∧
    (settled false (emitted w (reset k0 w).2) = true ∧
      startsWith forwardPulse (emitted w (reset k0 w).2) = true) ∧
    (settled false (emitted w (set k0 N w).2) = true ∧
      startsWith forwardPulse (emitted w (set k0 N w).2) = true) ∧
    (settled false (emitted w (destructiveRead k0 w).2) = true ∧
      startsWith forwardPulse (emitted w (destructiveRead k0 w).2) = true) ∧
    (settled false (emitted w (read k0 w).2) = true ∧
      startsWith forwardPulse (emitted w (read k0 w).2) = true) :=
  ⟨rfl, shape_settled _ (reset_shape k0 w), shape_settled _ (set_shape k0 N w),
    shape_settled _ (destructiveRead_shape k0 w), shape_settled _ (read_shape k0 w)⟩

/-- Claim C15. For every iteration index i in 0..9 the expression
(CATHODE_COUNT - i - 1) % CATHODE_COUNT of destructiveRead equals the bare
subtraction 10 - i - 1 and lies in 0..9, and it is what destructiveRead
returns when K0 first reads high on iteration i; on iteration 9 that is 0. -/
theorem destructiveRead_modulo_is_bare_subtraction (i : Nat) (hi : i ≤ 9) :
    Int.tmod (CATHODE_COUNT - (i : Int) - 1) CATHODE_COUNT = 10 - (i : Int) - 1 ∧
    0 ≤ Int.tmod (CATHODE_COUNT - (i : Int) - 1) CATHODE_COUNT ∧
    Int.tmod (CATHODE_COUNT - (i : Int) - 1) CATHODE_COUNT ≤ 9 ∧
    Int.tmod (CATHODE_COUNT - 9 - 1) CATHODE_COUNT = 0 ∧
    (∀ (f : Nat → Bool) (w : World), (∀ j, j < i → f (w.samples + j) = false) →
      f (w.samples + i) = true →
      (destructiveRead (oracleK0 f) w).1 = 10 - (i : Int) - 1) := by
  have e : Int.tmod (10 - (i : Int) - 1) 10 = 10 - (i : Int) - 1 := by
    interval_cases i <;> decide
  refine ⟨e, ?_, ?_, by decide, ?_⟩
  · show 0 ≤ Int.tmod (10 - (i : Int) - 1) 10
    rw [e]; omega
  · show Int.tmod (10 - (i : Int) - 1) 10 ≤ 9
    rw [e]; omega
  · intro f w hlow hhigh
    rw [destructiveRead_oracle_first f i w (by omega) hlow hhigh, e]

/-- Scenario 2 of the spec at the boundary: sense first asserted on iteration
9 reports 0, not 10. -/
theorem destructiveRead_modulo_is_bare_subtraction_witness :
    9 ≤ 9 ∧ Int.tmod (CATHODE_COUNT - ((9 : Nat) : Int) - 1) CATHODE_COUNT = 0 ∧
    (destructiveRead (oracleK0 (highOnlyAt 9)) (World.start 0)).1 = 0 :=
  ⟨by decide,
    by simpa using (destructiveRead_modulo_is_bare_subtraction 9 (by decide)).1,
    by simpa using ((destructiveRead_modulo_is_bare_subtraction 9 (by decide)).2.2.2.2
      (highOnlyAt 9) (World.start 0) (by decide) (by decide))⟩

/-- Claim C16. On a healthy simulated tube resting at P in 0..9, for every N,
the trace of set(N) is the homing trace followed by exactly N forward steps:
the homing holds exactly 10 - P forward steps when P is at least 1 and 10
when P is 0, each followed by the settling wait and a sample, and the rest
holds N forward steps and nothing else; set returns 0 with the tube at
N mod 10. -/
theorem set_healthy_step_counts (P : Nat) (hP : P < 10) (N : Nat) (w : World)
    (hw : w.idleAt P) :
    emitted w (reset healthyK0 w).2 =
      repeatTrace (homingSteps P - 1) (attempt false) ++ attempt true ∧
    forwardSteps (emitted w (reset healthyK0 w).2) = (if P = 0 then 10 else 10 - P) ∧
    emitted (reset healthyK0 w).2 (set healthyK0 N w).2 = repeatTrace N forwardPulse ∧
    forwardSteps (emitted (reset healthyK0 w).2 (set healthyK0 N w).2) = N ∧
    emitted w (set healthyK0 N w).2 =
      emitted w (reset healthyK0 w).2 ++ repeatTrace N forwardPulse ∧
    forwardSteps (emitted w (set healthyK0 N w).2) = (if P = 0 then 10 else 10 - P) + N ∧
    (set healthyK0 N w).1 = 0 ∧ (set healthyK0 N w).2.tube.pos = N % 10 := by
  obtain ⟨r1, _, r3⟩ := reset_healthy P hP w hw
  have hs := set_healthy P hP N w hw
  have e1 := emitted_of_trace w (reset healthyK0 w).2 _ r3
  have e2 := emitted_of_trace w (set healthyK0 N w).2 _ (set_healthy_trace P hP N w hw)
  have e3 : emitted (reset healthyK0 w).2 (set healthyK0 N w).2 = repeatTrace N forwardPulse := by
    apply emitted_of_trace
    rw [set_of_success healthyK0 N w r1, setLoop_trace]
  rw [e1, e2, e3, forwardSteps_homing, forwardSteps_homing_then_steps,
    forwardSteps_repeat_pulse_nil, homingSteps_pos P hP]
  exact ⟨rfl, rfl, rfl, rfl, rfl, rfl, hs.1, hs.2.2.2.2⟩

/-- Scenario 6 of the spec: from position 5, set(9) makes 5 homing steps
followed by 9 set steps and ends at position 9. -/
theorem set_healthy_step_counts_witness :
    5 < 10 ∧ (World.start 5).idleAt 5 ∧
    forwardSteps (emitted (World.start 5) (reset healthyK0 (World.start 5)).2) = 5 ∧
    forwardSteps
      (emitted (reset healthyK0 (World.start 5)).2 (set healthyK0 9 (World.start 5)).2) = 9 ∧
    forwardSteps (emitted (World.start 5) (set healthyK0 9 (World.start 5)).2) = 5 + 9 ∧
    (set healthyK0 9 (World.start 5)).1 = 0 ∧
    (set healthyK0 9 (World.start 5)).2.tube.pos = 9 := by
  obtain ⟨_, h1, _, h2, _, h3, h4⟩ :=
    set_healthy_step_counts 5 (by decide) 9 (World.start 5) (start_idleAt 5)
  exact ⟨by decide, start_idleAt 5, h1, h2, h3, h4⟩

/-- Claim C17. Entry sequence on a healthy simulated tube found at any
position P in 0..9: the initial reset leaves position 0 and led2 shows 0; the
set to 9 leaves position 9 and led3 shows 0; the read after the sleep returns
9 and leaves position 9, which is the world the endless loop starts from; and
in the first sweep the call set(i), for each i in 0..9, comes after i earlier
iterations, homes successfully and leaves the tube at position i. -/
theorem entry_sequence_healthy (P : Nat) (hP : P < 10) (i : Nat) (hi : i < 10) :
    (afterInitialReset healthyK0 ⟨P, Phase.idle⟩).tube.pos = 0 ∧
    (mainEntry healthyK0 (powerUp ⟨P, Phase.idle⟩)).led2 = 0 ∧
    (afterInitialSet healthyK0 ⟨P, Phase.idle⟩).tube.pos = 9 ∧
    (mainEntry healthyK0 (powerUp ⟨P, Phase.idle⟩)).led3 = 0 ∧
    (initialRead healthyK0 ⟨P, Phase.idle⟩).1 = 9 ∧
    (initialRead healthyK0 ⟨P, Phase.idle⟩).2.tube.pos = 9 ∧
    (mainEntry healthyK0 (powerUp ⟨P, Phase.idle⟩)).world =
      (initialRead healthyK0 ⟨P, Phase.idle⟩).2 ∧
    (main healthyK0 ⟨P, Phase.idle⟩ 1).world =
      sweepLoop healthyK0 10 0 (initialRead healthyK0 ⟨P, Phase.idle⟩).2 ∧
    sweepLoop healthyK0 10 0 (initialRead healthyK0 ⟨P, Phase.idle⟩).2 =
      sweepLoop healthyK0 (10 - (i + 1)) (i + 1)
        (sweepLoop healthyK0 (i + 1) 0 (initialRead healthyK0 ⟨P, Phase.idle⟩).2) ∧
    sweepLoop healthyK0 (i + 1) 0 (initialRead healthyK0 ⟨P, Phase.idle⟩).2 =
      sleep_for PULSE_RATE
        (set healthyK0 i
          (sweepLoop healthyK0 i 0 (initialRead healthyK0 ⟨P, Phase.idle⟩).2)).2 ∧
    (reset healthyK0
      (sweepLoop healthyK0 i 0 (initialRead healthyK0 ⟨P, Phase.idle⟩).2)).1 = 0 ∧
    (set healthyK0 i
      (sweepLoop healthyK0 i 0 (initialRead healthyK0 ⟨P, Phase.idle⟩).2)).1 = 0 ∧
    (set healthyK0 i
      (sweepLoop healthyK0 i 0 (initialRead healthyK0 ⟨P, Phase.idle⟩).2)).2.tube.pos = i ∧
    (sweepLoop healthyK0 (i + 1) 0 (initialRead healthyK0 ⟨P, Phase.idle⟩).2).tube.pos = i := by
  obtain ⟨m1, m2, m3, m4, m5, m6⟩ := mainEntry_healthy P hP
  obtain ⟨q, hq, hsw⟩ := sweepLoop_healthy i 0 _ 9 (by omega) m6
  have hset := set_healthy q hq i _ hsw
  have hres := (reset_healthy q hq _ hsw).1
  have e : i % 10 = i := by omega
  rw [e] at hset
  have hlast := sweepLoop_last healthyK0 i 0 (initialRead healthyK0 ⟨P, Phase.idle⟩).2
  rw [Nat.zero_add] at hlast
  have hsplit := sweepLoop_split healthyK0 (i + 1) (10 - (i + 1)) 0
    (initialRead healthyK0 ⟨P, Phase.idle⟩).2
  have e10 : i + 1 + (10 - (i + 1)) = 10 := by omega
  rw [e10, Nat.zero_add] at hsplit
  have l2 : (mainEntry healthyK0 (powerUp ⟨P, Phase.idle⟩)).led2 = 0 := by
    rw [mainEntry_led2, m2]
    rfl
  have l3 : (mainEntry healthyK0 (powerUp ⟨P, Phase.idle⟩)).led3 = 0 := by
    rw [mainEntry_led3, m4]
    rfl
  refine ⟨m1.2.2.2, l2, m3.2.2.2, l3, m5, m6.2.2.2, mainEntry_world healthyK0 _,
    main_first_sweep healthyK0 _, hsplit, hlast, hres, hset.1, hset.2.2.2.2, ?_⟩
  rw [hlast]
  exact hset.2.2.2.2

/-- Scenario 5 of the spec from position 3: homing, set to 9, read of 9, and
in the first sweep set(6) homes and leaves the tube at position 6. -/
theorem entry_sequence_healthy_witness :
    3 < 10 ∧ 6 < 10 ∧
    (afterInitialReset healthyK0 ⟨3, Phase.idle⟩).tube.pos = 0 ∧
    (mainEntry healthyK0 (powerUp ⟨3, Phase.idle⟩)).led2 = 0 ∧
    (afterInitialSet healthyK0 ⟨3, Phase.idle⟩).tube.pos = 9 ∧
    (mainEntry healthyK0 (powerUp ⟨3, Phase.idle⟩)).led3 = 0 ∧
    (initialRead healthyK0 ⟨3, Phase.idle⟩).1 = 9 ∧
    (initialRead healthyK0 ⟨3, Phase.idle⟩).2.tube.pos = 9 ∧
    (set healthyK0 6
      (sweepLoop healthyK0 6 0 (initialRead healthyK0 ⟨3, Phase.idle⟩).2)).1 = 0 ∧
    (sweepLoop healthyK0 (6 + 1) 0 (initialRead healthyK0 ⟨3, Phase.idle⟩).2).tube.pos = 6 := by
  obtain ⟨h1, h2, h3, h4, h5, h6, _, _, _, _, _, h7, _, h8⟩ :=
    entry_sequence_healthy 3 (by decide) 6 (by decide)
  exact ⟨by decide, by decide, h1, h2, h3, h4, h5, h6, h7, h8⟩

/-- Claim C18, evaluated where the code departs from it.  The sense line
first reads high on iteration 11 and again on the next sample: the destructive
read inside read yields -2, read passes it to set as the unsigned step count
4294967294, the homing of set succeeds at once, and read emits
12 + 1 + 4294967294 forward steps, far more than 209. -/
theorem read_exceeds_step_bound :
    (destructiveRead (oracleK0 (highAtBoth 11 12)) (World.start 0)).1 = -2 ∧
    toUInt32 (-2) = 4294967294 ∧
    (read (oracleK0 (highAtBoth 11 12)) (World.start 0)).1 = -2 ∧
    forwardSteps
      (emitted (World.start 0) (read (oracleK0 (highAtBoth 11 12)) (World.start 0)).2) =
      12 + 1 + 4294967294 ∧
    2 * MAX_ATTEMPTS + 9 <
      forwardSteps
        (emitted (World.start 0) (read (oracleK0 (highAtBoth 11 12)) (World.start 0)).2) := by
  have hd : (destructiveRead (oracleK0 (highAtBoth 11 12)) (World.start 0)).1 = -2 := by
    decide
  have hu : toUInt32 (-2) = 4294967294 := by decide
  have hv : Int.tmod (10 - ((11 : Nat) : Int) - 1) 10 = -2 := by decide
  have hs := read_steps_oracle (highAtBoth 11 12) 11 (World.start 0) (by decide)
    (by decide) (by decide) (by decide) (by decide)
  rw [hv, hu] at hs
  refine ⟨hd, hu, by rw [read_value, hd], hs, ?_⟩
  rw [hs]
  decide

/-- Claim C19. For every sense line and every entry world, destructiveRead
leaves exactly the world that reset leaves: the same trace of guide writes,
waits and K0 samples, hence the same number of forward steps and the same
tube position, and its loop ends with the same error flag; only the returned
value differs. -/
theorem destructiveRead_and_reset_emit_same_trace (k0 : SenseLine) (w : World) :
    (destructiveRead k0 w).2 = (reset k0 w).2 ∧
    (destructiveRead k0 w).2.trace = (reset k0 w).2.trace ∧
    emitted w (destructiveRead k0 w).2 = emitted w (reset k0 w).2 ∧
    forwardSteps (emitted w (destructiveRead k0 w).2) =
      forwardSteps (emitted w (reset k0 w).2) ∧
    (destructiveRead k0 w).2.tube.pos = (reset k0 w).2.tube.pos ∧
    (destructiveReadLoop k0 MAX_ATTEMPTS 0 w).1 = (reset k0 w).1 := by
  rw [destructiveRead_world]
  exact ⟨rfl, rfl, rfl, rfl, rfl, (destructiveReadLoop_resetLoop k0 MAX_ATTEMPTS 0 w).1⟩

/-- Claim C20. On the simulated tube resting at P in 0..9, a forward count
moves to P + 1 modulo 10 and a reverse count to P - 1 modulo 10; a forward
count followed by a reverse count restores P, so does a reverse count followed
by a forward count, and so do ten forward counts. -/
theorem count_forward_and_reverse_cancel (P : Nat) (hP : P < 10) (w : World)
    (hw : w.idleAt P) :
    (count true w).tube.pos = (P + 1) % 10 ∧
    (count false w).tube.pos = (P + 9) % 10 ∧
    (count false (count true w)).tube.pos = P ∧
    (count true (count false w)).tube.pos = P ∧
    (Nat.iterate (count true) 10 w).tube.pos = P := by
  have hf := count_forward_idleAt w P hw
  have hb := count_reverse_idleAt w P hw
  have hfb := (count_reverse_idleAt _ _ hf).2.2.2
  have hbf := (count_forward_idleAt _ _ hb).2.2.2
  have h10 := (iterate_count_idleAt 10 w P hP hw).2.2.2
  refine ⟨hf.2.2.2, hb.2.2.2, ?_, ?_, ?_⟩
  · rw [hfb]; omega
  · rw [hbf]; omega
  · rw [h10]; omega

/-- At the boundary position 0: forward then reverse, reverse then forward
and ten forward counts all end at 0. -/
theorem count_forward_and_reverse_cancel_witness :
    0 < 10 ∧ (World.start 0).idleAt 0 ∧
    (count true (World.start 0)).tube.pos = (0 + 1) % 10 ∧
    (count false (World.start 0)).tube.pos = (0 + 9) % 10 ∧
    (count false (count true (World.start 0))).tube.pos = 0 ∧
    (count true (count false (World.start 0))).tube.pos = 0 ∧
    (Nat.iterate (count true) 10 (World.start 0)).tube.pos = 0 :=
  ⟨by decide, start_idleAt 0,
    count_forward_and_reverse_cancel 0 (by decide) (World.start 0) (start_idleAt 0)⟩

end Dekatron
